import Mathlib

/-!
# Surviving In Mars — resource state / history consistency subsystem

Shallow embedding of the resource-tracking backend (`src/services/resource.service.js`,
`src/cron/resource.cron.js`, `src/controllers/resource.controller.js`) and proofs of the
frozen claims about it.

Conventions of the embedding:
* Quantities and stocks are modelled as `ℤ` (the schema declares the `quantity`/`stock`
  columns INTEGER); database ids and millisecond timestamps are `ℤ` as well.  The
  statistics engine divides in `ℚ`, mirroring the JS float arithmetic on these integral
  inputs.
* A JS value that may be `undefined`/`null` is an `Option`.
* The three tables (ResourceData catalog, Resource rows, ChangeHistory rows) form a `DB`
  record.  List order of `history` is insertion order; `createdAt` is set at insert time
  from the clock value `now` that each operation receives explicitly.
* The SQL `ORDER BY createdAt DESC/ASC` is modelled by `List.insertionSort` over a total
  order whose primary key is `createdAt` and whose tie-break is the row id (the spec fixes
  "ties broken by insertion order"; row ids increase with insertion).
* Sequelize transactions are modelled by a `Fault` parameter: a fault injected at either
  write or at commit rolls the transaction back, leaving the `DB` unchanged.
-/

namespace Mars

/-- Resource categories — the closed enumeration used by the service layer. -/
inductive Category where
  | oxygen
  | water
  | food
  | spare_parts
deriving DecidableEq

/-- Derived status bands of a resource (`enrichResourceWithLevels`). -/
inductive Status where
  | critical
  | low
  | normal
deriving DecidableEq

/-- Change direction recorded by `updateResourceQuantityService`. -/
inductive ChangeType where
  | increase
  | decrease
  | update
deriving DecidableEq

/-- Trend label computed by `getHistoryStatsService`. -/
inductive Trend where
  | stable
  | increasing
  | decreasing
deriving DecidableEq

/-- Threshold row of the level table (`resource.constants.js`). -/
structure Levels where
  minimumLevel : ℤ
  criticalLevel : ℤ
  maximumLevel : ℤ
  unit : String
deriving DecidableEq

/-- Modelled from the spec: `getLevelsByCategory` lives in
`src/constants/resource.constants.js`, which is not among the provided sources; the level
table is taken from the spec's §4.1 together with the repository README's table
(oxygen 3000/5000/25000 L, water 50/80/500 L, spare parts 10/20/100 u, food 5/10/70 kg). -/
def getLevelsByCategory : Category → Levels
  | .oxygen => { minimumLevel := 3000, criticalLevel := 5000, maximumLevel := 25000, unit := "L" }
  | .water => { minimumLevel := 50, criticalLevel := 80, maximumLevel := 500, unit := "L" }
  | .spare_parts => { minimumLevel := 10, criticalLevel := 20, maximumLevel := 100, unit := "u" }
  | .food => { minimumLevel := 5, criticalLevel := 10, maximumLevel := 70, unit := "kg" }

/-- Status computation of `enrichResourceWithLevels` (resource.service.js lines 30-31):
`quantity <= criticalLevel ? 'critical' : quantity <= minimumLevel ? 'low' : 'normal'`. -/
def deriveStatus (quantity : ℤ) (levels : Levels) : Status :=
  if quantity ≤ levels.criticalLevel then .critical
  else if quantity ≤ levels.minimumLevel then .low
  else .normal

/-- Catalog entry (`ResourceData` model). -/
structure ResourceData where
  id : ℤ
  name : String
  category : Category
deriving DecidableEq

/-- Current-quantity row (`Resource` model). -/
structure Resource where
  id : ℤ
  quantity : ℤ
  resourceDataId : ℤ
deriving DecidableEq

/-- History row (`ChangeHistory` model).  `changeType` is only set by the quantity-update
operation; the cron snapshot inserts rows without it. -/
structure HistoryEntry where
  id : ℤ
  stock : ℤ
  resourceId : ℤ
  changeType : Option ChangeType
  createdAt : ℤ
deriving DecidableEq

/-- The three tables plus the id sequences used for fresh rows. -/
structure DB where
  catalog : List ResourceData
  resources : List Resource
  history : List HistoryEntry
  nextResourceId : ℤ
  nextHistoryId : ℤ
deriving DecidableEq

/-- `ResourceData.findByPk(id)` — a pure catalog lookup. -/
def findData (db : DB) (resourceDataId : ℤ) : Option ResourceData :=
  db.catalog.find? (fun rd => rd.id == resourceDataId)

/-- `Resource.findByPk(id)`. -/
def findResource (db : DB) (id : ℤ) : Option Resource :=
  db.resources.find? (fun r => r.id == id)

/-- Enriched view built by `enrichResourceWithLevels` (resource.service.js lines 13-33). -/
structure Enriched where
  id : ℤ
  quantity : ℤ
  resourceDataId : ℤ
  resourceData : ResourceData
  minimumLevel : ℤ
  criticalLevel : ℤ
  maximumLevel : ℤ
  unit : String
  status : Status
deriving DecidableEq

/-- `enrichResourceWithLevels(resource)` where `resource.resourceData` is the joined
catalog row. -/
def enrichResourceWithLevels (resource : Resource) (resourceData : ResourceData) : Enriched :=
  let levels := getLevelsByCategory resourceData.category
  { id := resource.id
    quantity := resource.quantity
    resourceDataId := resource.resourceDataId
    resourceData := resourceData
    minimumLevel := levels.minimumLevel
    criticalLevel := levels.criticalLevel
    maximumLevel := levels.maximumLevel
    unit := levels.unit
    status := deriveStatus resource.quantity levels }

/-- `getAllResourcesService`: all resources joined with their catalog row, enriched.
`none` models the crash that a dangling `resourceDataId` would cause inside
`enrichResourceWithLevels` (the FK constraint rules it out on a well-formed store). -/
def getAllResourcesService (db : DB) : Option (List Enriched) :=
  db.resources.mapM (fun r => (findData db r.resourceDataId).map (enrichResourceWithLevels r))

/-- Fault injection point for the `updateResourceQuantityService` transaction. -/
inductive Fault where
  | noFault
  | atSave
  | atAppend
  | atCommit
deriving DecidableEq

/-- Outcome of `updateResourceQuantityService`.  `invalidQuantity`/`resourceNotFound`
model the string sentinels; `storageFault` models the rethrown storage error after
rollback; `committedNoData` models a commit whose post-commit enrichment would crash
(dangling catalog reference). -/
inductive UpdateResult where
  | invalidQuantity
  | resourceNotFound
  | storageFault
  | committedNoData
  | ok (resource : Enriched)
deriving DecidableEq

/-- `updateResourceQuantityService(id, quantity)` (resource.service.js lines 85-123).
Validation first, then lookup, then a transaction writing the new quantity and one
history row; a fault anywhere inside the transaction rolls both writes back. -/
def updateResourceQuantityService (db : DB) (now : ℤ) (fault : Fault) (id : ℤ)
    (quantity : Option ℤ) : UpdateResult × DB :=
  match quantity with
  | none => (.invalidQuantity, db)
  | some q =>
    if q < 0 then (.invalidQuantity, db)
    else
      match findResource db id with
      | none => (.resourceNotFound, db)
      | some resource =>
        match fault with
        | .atSave | .atAppend | .atCommit => (.storageFault, db)
        | .noFault =>
          let oldQuantity := resource.quantity
          let updated : Resource := { resource with quantity := q }
          let entry : HistoryEntry :=
            { id := db.nextHistoryId
              stock := q
              resourceId := resource.resourceDataId
              changeType := some (if oldQuantity < q then .increase
                                  else if q < oldQuantity then .decrease else .update)
              createdAt := now }
          let db' : DB :=
            { db with
              resources := db.resources.map (fun r => if r.id == id then updated else r)
              history := db.history ++ [entry]
              nextHistoryId := db.nextHistoryId + 1 }
          (match findData db resource.resourceDataId with
           | none => .committedNoData
           | some rd => .ok (enrichResourceWithLevels updated rd), db')

/-- Outcome of `createResourceService`. -/
inductive CreateResult where
  | missingField
  | invalidQuantity
  | typeNotFound
  | alreadyExists
  | ok (resource : Enriched)
deriving DecidableEq

/-- JS truthiness test `!resourceDataId`: true for an absent id and for the number `0`. -/
def isFalsyId : Option ℤ → Bool
  | none => true
  | some i => i == 0

/-- `createResourceService({resourceDataId, quantity})` (resource.service.js
lines 274-314). -/
def createResourceService (db : DB) (resourceDataId : Option ℤ) (quantity : Option ℤ) :
    CreateResult × DB :=
  if isFalsyId resourceDataId then (.missingField, db)
  else
    match resourceDataId, quantity with
    | some i, q =>
      match q with
      | none => (.invalidQuantity, db)
      | some v =>
        if v < 0 then (.invalidQuantity, db)
        else
          match findData db i with
          | none => (.typeNotFound, db)
          | some rd =>
            match db.resources.find? (fun r => r.resourceDataId == i) with
            | some _ => (.alreadyExists, db)
            | none =>
              let resource : Resource := { id := db.nextResourceId, quantity := v, resourceDataId := i }
              let db' : DB :=
                { db with
                  resources := db.resources ++ [resource]
                  nextResourceId := db.nextResourceId + 1 }
              (.ok (enrichResourceWithLevels resource rd), db')
    | none, _ => (.missingField, db)

/-- `ORDER BY createdAt DESC` with the spec's tie-break (later-inserted rows, i.e. larger
row ids, are newer): `a` sorts before `b`. -/
def newestFirst (a b : HistoryEntry) : Prop :=
  b.createdAt < a.createdAt ∨ (a.createdAt = b.createdAt ∧ b.id ≤ a.id)

instance : DecidableRel newestFirst := fun a b =>
  inferInstanceAs (Decidable (b.createdAt < a.createdAt ∨ (a.createdAt = b.createdAt ∧ b.id ≤ a.id)))

/-- `ORDER BY createdAt ASC` with the same tie-break. -/
def oldestFirst (a b : HistoryEntry) : Prop :=
  a.createdAt < b.createdAt ∨ (a.createdAt = b.createdAt ∧ a.id ≤ b.id)

instance : DecidableRel oldestFirst := fun a b =>
  inferInstanceAs (Decidable (a.createdAt < b.createdAt ∨ (a.createdAt = b.createdAt ∧ a.id ≤ b.id)))

instance : IsTotal HistoryEntry newestFirst where
  total a b := by
    unfold newestFirst
    omega

instance : IsTrans HistoryEntry newestFirst where
  trans a b c hab hbc := by
    unfold newestFirst at *
    omega

instance : IsTotal HistoryEntry oldestFirst where
  total a b := by
    unfold oldestFirst
    omega

instance : IsTrans HistoryEntry oldestFirst where
  trans a b c hab hbc := by
    unfold oldestFirst at *
    omega

/-- Result of the two history queries: the `RESOURCE_NOT_FOUND` sentinel or data. -/
inductive QueryResult (α : Type) where
  | resourceNotFound
  | ok (data : α)
deriving DecidableEq

/-- `getResourceHistoryService(resourceId, limit = 100)` (resource.service.js
lines 162-180): catalog existence check, then the rows for that type newest-first,
limited. -/
def getResourceHistoryService (db : DB) (resourceId : ℤ) (limit : ℕ := 100) :
    QueryResult (List HistoryEntry) :=
  match findData db resourceId with
  | none => .resourceNotFound
  | some _ =>
    .ok ((List.insertionSort newestFirst
      (db.history.filter (fun e => e.resourceId == resourceId))).take limit)

/-- One day in milliseconds (`setHours(getHours() - 24)`). -/
def oneDayMs : ℤ := 24 * 3600000

/-- The rows selected by the stats query's WHERE clause: the given type, not older than
`now - 24h`. -/
def windowFilter (db : DB) (now : ℤ) (resourceId : ℤ) : List HistoryEntry :=
  db.history.filter (fun e => decide (e.resourceId = resourceId ∧ now - oneDayMs ≤ e.createdAt))

/-- The 24-hour window of `getHistoryStatsService`, oldest-first (`ORDER BY createdAt ASC`). -/
def statsWindow (db : DB) (now : ℤ) (resourceId : ℤ) : List HistoryEntry :=
  List.insertionSort oldestFirst (windowFilter db now resourceId)

/-- Stats object of `getHistoryStatsService`.  The zero-records early return carries no
`percentageChange`/`timeRange` keys, hence the `Option` fields. -/
structure Stats where
  average : ℤ
  min : ℤ
  max : ℤ
  current : ℤ
  trend : Trend
  percentageChange : Option ℚ
  totalRecords : ℕ
  timeRange : Option String
deriving DecidableEq

/-- `Math.min(...values)` on a nonempty list (the empty default is never reached). -/
def jsMin : List ℤ → ℤ
  | [] => 0
  | x :: xs => xs.foldl min x

/-- `Math.max(...values)`. -/
def jsMax : List ℤ → ℤ
  | [] => 0
  | x :: xs => xs.foldl max x

/-- `getHistoryStatsService(resourceId)` (resource.service.js lines 205-271).
`round` is Mathlib's round-half-up, which agrees with JS `Math.round`. -/
def getHistoryStatsService (db : DB) (now : ℤ) (resourceId : ℤ) :
    QueryResult (ResourceData × Stats) :=
  match findData db resourceId with
  | none => .resourceNotFound
  | some resourceData =>
    let history := statsWindow db now resourceId
    if history.length = 0 then
      .ok (resourceData,
        { average := 0, min := 0, max := 0, current := 0, trend := .stable
          percentageChange := none, totalRecords := 0, timeRange := none })
    else
      let values := history.map (fun h => h.stock)
      let average : ℚ := ((values.foldl (· + ·) 0 : ℤ) : ℚ) / (values.length : ℚ)
      let current := values.getLastD 0
      let firstValue := values.headD 0
      let change := current - firstValue
      let percentageChange : ℚ :=
        if firstValue ≠ 0 then ((change : ℚ) / (firstValue : ℚ)) * 100 else 0
      let trend : Trend :=
        if 5 < percentageChange then .increasing
        else if percentageChange < -5 then .decreasing else .stable
      .ok (resourceData,
        { average := round average
          min := jsMin values
          max := jsMax values
          current := current
          trend := trend
          percentageChange := some ((round (percentageChange * 100) : ℚ) / 100)
          totalRecords := history.length
          timeRange := some "24h" })

/-- A JS object on the WebSocket wire: the keys of `resource.toJSON()` plus the extra
keys that `enrichResourceWithLevels` would add; `none` models an absent key. -/
structure WireResource where
  id : ℤ
  quantity : ℤ
  resourceDataId : ℤ
  resourceData : Option ResourceData
  minimumLevel : Option ℤ
  criticalLevel : Option ℤ
  maximumLevel : Option ℤ
  unit : Option String
  status : Option Status
deriving DecidableEq

/-- `resource.toJSON()` of a row fetched with its `resourceData` include: the plain
columns plus the joined catalog row, and nothing else. -/
def resourceToJSON (db : DB) (r : Resource) : WireResource :=
  { id := r.id, quantity := r.quantity, resourceDataId := r.resourceDataId
    resourceData := findData db r.resourceDataId
    minimumLevel := none, criticalLevel := none, maximumLevel := none
    unit := none, status := none }

/-- The enriched view as it would appear on the wire. -/
def Enriched.toWire (e : Enriched) : WireResource :=
  { id := e.id, quantity := e.quantity, resourceDataId := e.resourceDataId
    resourceData := some e.resourceData
    minimumLevel := some e.minimumLevel, criticalLevel := some e.criticalLevel
    maximumLevel := some e.maximumLevel, unit := some e.unit, status := some e.status }

/-- Payload of the `resources:update` broadcast. -/
structure Broadcast where
  resources : List WireResource
  count : ℕ
  timestamp : ℤ
deriving DecidableEq

/-- One firing of the monitoring cron (resource.cron.js lines 10-54): read all resources,
return early when there are none, otherwise insert one history row per resource and —
when a socket server is attached — emit a single `resources:update` broadcast carrying
the plain (`toJSON`) resource list and the firing timestamp. -/
def resourceMonitoringTick (db : DB) (now : ℤ) (io : Bool) : DB × Option Broadcast :=
  let resources := db.resources
  if resources.isEmpty then (db, none)
  else
    let newEntries := resources.enum.map (fun p =>
      { id := db.nextHistoryId + p.1
        stock := p.2.quantity
        resourceId := p.2.resourceDataId
        changeType := none
        createdAt := now : HistoryEntry })
    let db' : DB :=
      { db with
        history := db.history ++ newEntries
        nextHistoryId := db.nextHistoryId + resources.length }
    if io then
      (db', some { resources := resources.map (resourceToJSON db)
                   count := resources.length
                   timestamp := now })
    else (db', none)

/-- Thirty days in milliseconds (`setDate(getDate() - 30)`). -/
def thirtyDaysMs : ℤ := 30 * 86400000

/-- One firing of the cleanup cron (resource.cron.js lines 60-82): destroy every history
row with `createdAt` strictly below `now - 30d` and report how many were destroyed. -/
def historyCleanupTick (db : DB) (now : ℤ) : DB × ℕ :=
  let thirtyDaysAgo := now - thirtyDaysMs
  let deleted := (db.history.filter (fun e => decide (e.createdAt < thirtyDaysAgo))).length
  ({ db with history := db.history.filter (fun e => decide (¬ e.createdAt < thirtyDaysAgo)) },
   deleted)

/-! ## Sample stores used by witnesses and counterexamples -/

/-- A small well-formed store: an oxygen catalog entry with one tracked resource and one
history row, plus a water catalog entry that is not tracked yet. -/
def db0 : DB :=
  { catalog := [{ id := 1, name := "Main Oxygen Tank", category := .oxygen },
                { id := 2, name := "Water Reserve", category := .water }]
    resources := [{ id := 1, quantity := 15000, resourceDataId := 1 }]
    history := [{ id := 1, stock := 14000, resourceId := 1, changeType := none, createdAt := 100 }]
    nextResourceId := 2
    nextHistoryId := 2 }

/-- A store whose only history row records stock 0. -/
def dbZero : DB :=
  { catalog := [{ id := 1, name := "Main Oxygen Tank", category := .oxygen }]
    resources := [{ id := 1, quantity := 0, resourceDataId := 1 }]
    history := [{ id := 1, stock := 0, resourceId := 1, changeType := none, createdAt := 100 }]
    nextResourceId := 2
    nextHistoryId := 2 }

/-! ## Helper lemmas -/

/-- `find?` over a map that rewrites exactly the rows matching the searched id. -/
theorem find?_map_overwrite (l : List Resource) (id : ℤ) (r upd : Resource)
    (hfind : l.find? (fun x => x.id == id) = some r) (hupd : upd.id = id) :
    (l.map (fun x => if x.id == id then upd else x)).find? (fun x => x.id == id) = some upd := by
  induction l with
  | nil => simp at hfind
  | cons x xs ih =>
    by_cases hx : x.id = id
    · rw [List.map_cons, if_pos (by simp [hx]), List.find?_cons_of_pos _ (by simp [hupd])]
    · rw [List.find?_cons_of_neg _ (by simp [hx])] at hfind
      rw [List.map_cons, if_neg (by simp [hx]), List.find?_cons_of_neg _ (by simp [hx])]
      exact ih hfind

/-- Inserting a strictly maximal element at the tail end makes it the sorted head. -/
theorem insertionSort_append_strictMax {r : HistoryEntry → HistoryEntry → Prop}
    [DecidableRel r] (l : List HistoryEntry) (e : HistoryEntry)
    (h : ∀ x ∈ l, ¬ r x e) :
    List.insertionSort r (l ++ [e]) = e :: List.insertionSort r l := by
  induction l with
  | nil => rfl
  | cons x xs ih =>
    have hx : ¬ r x e := h x (by simp)
    have ih' := ih (fun y hy => h y (by simp [hy]))
    simp only [List.cons_append, List.insertionSort, List.append_eq, ih',
      List.orderedInsert, if_neg hx]

theorem foldl_min_le_init (l : List ℤ) (a : ℤ) : l.foldl min a ≤ a := by
  induction l generalizing a with
  | nil => simp
  | cons x xs ih => exact le_trans (ih (min a x)) (min_le_left a x)

theorem foldl_min_le_mem (l : List ℤ) (a : ℤ) (v : ℤ) (hv : v ∈ l) : l.foldl min a ≤ v := by
  induction l generalizing a with
  | nil => simp at hv
  | cons x xs ih =>
    rcases List.mem_cons.1 hv with rfl | hv'
    · exact le_trans (foldl_min_le_init xs (min a v)) (min_le_right a v)
    · exact ih (min a x) hv'

theorem foldl_min_mem (l : List ℤ) (a : ℤ) : l.foldl min a = a ∨ l.foldl min a ∈ l := by
  induction l generalizing a with
  | nil => simp
  | cons x xs ih =>
    rcases ih (min a x) with h | h
    · rcases min_cases a x with ⟨heq, _⟩ | ⟨heq, _⟩
      · exact .inl (by rw [List.foldl_cons, h, heq])
      · exact .inr (by rw [List.foldl_cons, h, heq]; exact List.mem_cons_self x xs)
    · exact .inr (List.mem_cons_of_mem x h)

theorem init_le_foldl_max (l : List ℤ) (a : ℤ) : a ≤ l.foldl max a := by
  induction l generalizing a with
  | nil => simp
  | cons x xs ih => exact le_trans (le_max_left a x) (ih (max a x))

theorem mem_le_foldl_max (l : List ℤ) (a : ℤ) (v : ℤ) (hv : v ∈ l) : v ≤ l.foldl max a := by
  induction l generalizing a with
  | nil => simp at hv
  | cons x xs ih =>
    rcases List.mem_cons.1 hv with rfl | hv'
    · exact le_trans (le_max_right a v) (init_le_foldl_max xs (max a v))
    · exact ih (max a x) hv'

theorem foldl_max_mem (l : List ℤ) (a : ℤ) : l.foldl max a = a ∨ l.foldl max a ∈ l := by
  induction l generalizing a with
  | nil => simp
  | cons x xs ih =>
    rcases ih (max a x) with h | h
    · rcases max_cases a x with ⟨heq, _⟩ | ⟨heq, _⟩
      · exact .inl (by rw [List.foldl_cons, h, heq])
      · exact .inr (by rw [List.foldl_cons, h, heq]; exact List.mem_cons_self x xs)
    · exact .inr (List.mem_cons_of_mem x h)

theorem foldl_add_eq_sum (l : List ℤ) (a : ℤ) : l.foldl (· + ·) a = a + l.sum := by
  induction l generalizing a with
  | nil => simp
  | cons x xs ih => simp [List.foldl_cons, ih (a + x), add_assoc]

theorem oldestFirst_refl (a : HistoryEntry) : oldestFirst a a := by
  unfold oldestFirst
  omega

/-- In a list sorted by a reflexive relation every element relates to the last one. -/
theorem sorted_rel_getLastD {r : HistoryEntry → HistoryEntry → Prop}
    (hrefl : ∀ a, r a a) :
    ∀ (l : List HistoryEntry) (a : HistoryEntry), (a :: l).Sorted r →
      ∀ x ∈ a :: l, r x (l.getLastD a)
  | [], _, _, x, hx => by
    simp only [List.mem_singleton] at hx
    subst hx
    exact hrefl _
  | b :: t, a, hs, x, hx => by
    have hcons := List.sorted_cons.1 hs
    rw [List.getLastD_cons]
    rcases List.mem_cons.1 hx with rfl | hx'
    · exact hcons.1 _ (List.getLastD_mem_cons t b)
    · exact sorted_rel_getLastD hrefl t b hcons.2 x hx'

theorem getLastD_map {α β : Type} (f : α → β) :
    ∀ (l : List α) (a : α), (l.map f).getLastD (f a) = f (l.getLastD a)
  | [], _ => rfl
  | x :: t, a => by
    rw [List.map_cons, List.getLastD_cons, List.getLastD_cons]
    exact getLastD_map f t x

theorem forall₂_enumFrom_map {α β : Type} (P : α → β → Prop) (f : ℕ × α → β)
    (h : ∀ n a, P a (f (n, a))) :
    ∀ (l : List α) (n : ℕ), List.Forall₂ P l ((l.enumFrom n).map f)
  | [], _ => List.Forall₂.nil
  | a :: l, n => List.Forall₂.cons (h n a) (forall₂_enumFrom_map P f h l (n + 1))

/-! ## Claims -/

/-- **C2** — for every quantity and every category's levels the derived status partitions
the quantity space into exactly three bands, checked in a fixed order with the critical
check strictly first, so a quantity below both thresholds (even under a misconfiguration
with `criticalLevel ≥ minimumLevel`) is reported `critical`; this is the status computed
by `enrichResourceWithLevels`. -/
theorem deriveStatus_partition (q : ℤ) (L : Levels) (r : Resource) (rd : ResourceData) :
    (deriveStatus q L = .critical ↔ q ≤ L.criticalLevel) ∧
    (deriveStatus q L = .low ↔ L.criticalLevel < q ∧ q ≤ L.minimumLevel) ∧
    (deriveStatus q L = .normal ↔ L.criticalLevel < q ∧ L.minimumLevel < q) ∧
    (enrichResourceWithLevels r rd).status =
      deriveStatus r.quantity (getLevelsByCategory rd.category) := by
  refine ⟨?_, ?_, ?_, rfl⟩ <;>
    · unfold deriveStatus
      split_ifs <;> simp_all

/-- **C1** — for a resolving resource id and a valid quantity, `updateResourceQuantityService`
is atomic: with no fault it overwrites exactly that resource's quantity and appends exactly
one history row carrying the new quantity; a storage fault anywhere inside the transaction
leaves the store (quantity and ledger) exactly as it was. -/
theorem updateQuantity_atomic (db : DB) (now : ℤ) (fault : Fault) (id q : ℤ)
    (r : Resource) (hq : 0 ≤ q) (hr : findResource db id = some r) :
    (fault ≠ .noFault →
      updateResourceQuantityService db now fault id (some q) = (.storageFault, db)) ∧
    (fault = .noFault →
      ∃ entry : HistoryEntry,
        (updateResourceQuantityService db now fault id (some q)).2.history =
          db.history ++ [entry] ∧
        entry.stock = q ∧ entry.resourceId = r.resourceDataId ∧ entry.createdAt = now ∧
        findResource (updateResourceQuantityService db now fault id (some q)).2 id =
          some { r with quantity := q } ∧
        (∀ x ∈ db.resources, x.id ≠ id →
          x ∈ (updateResourceQuantityService db now fault id (some q)).2.resources) ∧
        (updateResourceQuantityService db now fault id (some q)).2.resources.length =
          db.resources.length ∧
        (updateResourceQuantityService db now fault id (some q)).2.catalog = db.catalog) := by
  have hnotlt : ¬ q < 0 := not_lt.2 hq
  constructor
  · intro hf
    cases fault <;> simp_all [updateResourceQuantityService, hr]
  · rintro rfl
    have hrid : r.id = id := by simpa using List.find?_some hr
    refine ⟨{ id := db.nextHistoryId, stock := q, resourceId := r.resourceDataId
              changeType := some (if r.quantity < q then .increase
                                  else if q < r.quantity then .decrease else .update)
              createdAt := now },
            ?_, rfl, rfl, rfl, ?_, ?_, ?_, ?_⟩ <;>
      simp only [updateResourceQuantityService, hr, hnotlt, if_false]
    · simp only [findResource]
      exact find?_map_overwrite db.resources id r { r with quantity := q } hr
        (by simpa using hrid)
    · intro x hx hxid
      exact List.mem_map.2 ⟨x, hx, by simp [hxid]⟩
    · simp

/-- **C1 witness** — instantiation of `updateQuantity_atomic` on the sample store, once
with an injected fault and once without. -/
theorem updateQuantity_atomic_witness :
    ((0 : ℤ) ≤ 4000 ∧
      findResource db0 1 = some { id := 1, quantity := 15000, resourceDataId := 1 }) ∧
    updateResourceQuantityService db0 200 .atAppend 1 (some 4000) = (.storageFault, db0) ∧
    (∃ entry : HistoryEntry,
      (updateResourceQuantityService db0 200 .noFault 1 (some 4000)).2.history =
        db0.history ++ [entry] ∧
      entry.stock = 4000 ∧ entry.resourceId = 1 ∧ entry.createdAt = 200 ∧
      findResource (updateResourceQuantityService db0 200 .noFault 1 (some 4000)).2 1 =
        some { id := 1, quantity := 4000, resourceDataId := 1 } ∧
      (∀ x ∈ db0.resources, x.id ≠ 1 →
        x ∈ (updateResourceQuantityService db0 200 .noFault 1 (some 4000)).2.resources) ∧
      (updateResourceQuantityService db0 200 .noFault 1 (some 4000)).2.resources.length =
        db0.resources.length ∧
      (updateResourceQuantityService db0 200 .noFault 1 (some 4000)).2.catalog = db0.catalog) :=
  ⟨⟨by decide, by decide⟩,
   (updateQuantity_atomic db0 200 .atAppend 1 4000 { id := 1, quantity := 15000, resourceDataId := 1 }
      (by decide) (by decide)).1 (by decide),
   (updateQuantity_atomic db0 200 .noFault 1 4000 { id := 1, quantity := 15000, resourceDataId := 1 }
      (by decide) (by decide)).2 rfl⟩

/-- **C10** — for both `createResourceService` and `updateResourceQuantityService` the
quantity check rejects exactly `undefined`/`null` (`none`) and negative values, with no
state change; quantity `0` is accepted: an update to `0` overwrites the state and appends
a history row with stock `0`, and a create with `0` succeeds. -/
theorem quantityValidation_zeroAccepted (db : DB) (now : ℤ) (fault : Fault) (id i : ℤ)
    (q : Option ℤ) (r : Resource) (hi : i ≠ 0) (hr : findResource db id = some r) :
    (updateResourceQuantityService db now fault id q = (.invalidQuantity, db) ↔
      q = none ∨ ∃ v, q = some v ∧ v < 0) ∧
    ((createResourceService db (some i) q).1 = .invalidQuantity ↔
      q = none ∨ ∃ v, q = some v ∧ v < 0) ∧
    ((createResourceService db (some i) q).1 = .invalidQuantity →
      (createResourceService db (some i) q).2 = db) ∧
    (∃ entry : HistoryEntry,
      (updateResourceQuantityService db now .noFault id (some 0)).2.history =
        db.history ++ [entry] ∧ entry.stock = 0) ∧
    (findResource (updateResourceQuantityService db now .noFault id (some 0)).2 id =
      some { r with quantity := 0 }) ∧
    (∀ rd, findData db i = some rd →
      db.resources.find? (fun x => x.resourceDataId == i) = none →
      (createResourceService db (some i) (some 0)).1 =
        .ok (enrichResourceWithLevels
          { id := db.nextResourceId, quantity := 0, resourceDataId := i } rd)) := by
  have hii : (i == 0) = false := by simpa using hi
  have hrid : r.id = id := by simpa using List.find?_some hr
  have h00 : ¬ (0 : ℤ) < 0 := lt_irrefl 0
  refine ⟨?_, ?_, ?_, ?_, ?_, ?_⟩
  · cases q with
    | none => simp [updateResourceQuantityService]
    | some v =>
      by_cases hv : v < 0
      · simp [updateResourceQuantityService, hv]
      · simp only [updateResourceQuantityService, hv, if_false, hr]
        cases fault <;>
          [skip; simp [hv]; simp [hv]; simp [hv]] <;>
          cases hfd : findData db r.resourceDataId <;> simp [hfd, hv]
  · cases q with
    | none => simp [createResourceService, isFalsyId, hii]
    | some v =>
      by_cases hv : v < 0
      · simp [createResourceService, isFalsyId, hii, hv]
      · simp only [createResourceService, isFalsyId, hii, Bool.false_eq_true, if_false, hv]
        cases hfd : findData db i <;> simp only [hfd] <;>
          [simp [hv];
           cases hex : db.resources.find? (fun x => x.resourceDataId == i) <;> simp [hex, hv]]
  · cases q with
    | none => simp [createResourceService, isFalsyId, hii]
    | some v =>
      by_cases hv : v < 0
      · simp [createResourceService, isFalsyId, hii, hv]
      · simp only [createResourceService, isFalsyId, hii, Bool.false_eq_true, if_false, hv]
        cases hfd : findData db i <;> simp only [hfd] <;>
          [simp;
           cases hex : db.resources.find? (fun x => x.resourceDataId == i) <;> simp [hex]]
  · refine ⟨{ id := db.nextHistoryId, stock := 0, resourceId := r.resourceDataId
              changeType := some (if r.quantity < 0 then .increase
                                  else if 0 < r.quantity then .decrease else .update)
              createdAt := now }, ?_, rfl⟩
    simp only [updateResourceQuantityService, h00, if_false, hr]
  · simp only [updateResourceQuantityService, h00, if_false, hr]
    simp only [findResource]
    exact find?_map_overwrite db.resources id r { r with quantity := 0 } hr
      (by simpa using hrid)
  · intro rd hfd hex
    simp [createResourceService, isFalsyId, hii, hfd, hex]

/-- **C10 witness** — instantiation of `quantityValidation_zeroAccepted` on the sample
store with quantity `0`. -/
theorem quantityValidation_zeroAccepted_witness :
    ((2 : ℤ) ≠ 0 ∧
      findResource db0 1 = some { id := 1, quantity := 15000, resourceDataId := 1 }) ∧
    (updateResourceQuantityService db0 200 .noFault 1 (some 0) = (.invalidQuantity, db0) ↔
      (some (0 : ℤ) = none ∨ ∃ v, some (0 : ℤ) = some v ∧ v < 0)) ∧
    (∃ entry : HistoryEntry,
      (updateResourceQuantityService db0 200 .noFault 1 (some 0)).2.history =
        db0.history ++ [entry] ∧ entry.stock = 0) :=
  ⟨⟨by decide, by decide⟩,
   (quantityValidation_zeroAccepted db0 200 .noFault 1 2 (some 0)
      { id := 1, quantity := 15000, resourceDataId := 1 } (by decide) (by decide)).1,
   (quantityValidation_zeroAccepted db0 200 .noFault 1 2 (some 0)
      { id := 1, quantity := 15000, resourceDataId := 1 } (by decide) (by decide)).2.2.2.1⟩

/-- **C4 counterexample** — the claim says `create` fails with `TypeNotFound` whenever the
given `resourceTypeId` does not resolve in the catalog, but the JS truthiness guard
`!resourceDataId` intercepts the (unresolvable) id `0` first and reports the missing-field
error instead. -/
theorem createResource_typeNotFound_counterexample :
    findData db0 0 = none ∧
    createResourceService db0 (some 0) (some 5) = (.missingField, db0) ∧
    (createResourceService db0 (some 0) (some 5)).1 ≠ .typeNotFound := by
  refine ⟨by decide, by decide, by decide⟩

/-- **C4 (amended)** — `createResourceService` fails with the missing-field error when
`resourceTypeId` is absent *or the falsy id `0`*; with `InvalidQuantity` when the quantity
is absent or negative; with `TypeNotFound` when a nonzero id does not resolve in the
catalog; with the conflict error when a ResourceState already references the type.  Every
failure leaves the store unchanged; on success the enriched view of the new resource is
returned and exactly that resource is added. -/
theorem createResource_checks (db : DB) (rdid : Option ℤ) (q : Option ℤ) :
    ((rdid = none ∨ rdid = some 0) → createResourceService db rdid q = (.missingField, db)) ∧
    (∀ i, rdid = some i → i ≠ 0 → (q = none ∨ ∃ v, q = some v ∧ v < 0) →
      createResourceService db rdid q = (.invalidQuantity, db)) ∧
    (∀ i v, rdid = some i → i ≠ 0 → q = some v → 0 ≤ v → findData db i = none →
      createResourceService db rdid q = (.typeNotFound, db)) ∧
    (∀ i v rd r0, rdid = some i → i ≠ 0 → q = some v → 0 ≤ v → findData db i = some rd →
      db.resources.find? (fun x => x.resourceDataId == i) = some r0 →
      createResourceService db rdid q = (.alreadyExists, db)) ∧
    (∀ i v rd, rdid = some i → i ≠ 0 → q = some v → 0 ≤ v → findData db i = some rd →
      db.resources.find? (fun x => x.resourceDataId == i) = none →
      createResourceService db rdid q =
        (.ok (enrichResourceWithLevels
                { id := db.nextResourceId, quantity := v, resourceDataId := i } rd),
         { db with
           resources := db.resources ++
             [{ id := db.nextResourceId, quantity := v, resourceDataId := i }]
           nextResourceId := db.nextResourceId + 1 })) := by
  refine ⟨?_, ?_, ?_, ?_, ?_⟩
  · rintro (rfl | rfl) <;> simp [createResourceService, isFalsyId]
  · rintro i rfl hi (rfl | ⟨v, rfl, hv⟩)
    · simp [createResourceService, isFalsyId, (by simpa using hi : (i == 0) = false)]
    · simp [createResourceService, isFalsyId, (by simpa using hi : (i == 0) = false), hv]
  · rintro i v rfl hi rfl hv hfd
    simp [createResourceService, isFalsyId, (by simpa using hi : (i == 0) = false),
      not_lt.2 hv, hfd]
  · rintro i v rd r0 rfl hi rfl hv hfd hex
    simp [createResourceService, isFalsyId, (by simpa using hi : (i == 0) = false),
      not_lt.2 hv, hfd, hex]
  · rintro i v rd rfl hi rfl hv hfd hex
    simp [createResourceService, isFalsyId, (by simpa using hi : (i == 0) = false),
      not_lt.2 hv, hfd, hex]

/-- **C4 witness** — instantiation of `createResource_checks`: creating the untracked
water type on the sample store succeeds with the enriched view. -/
theorem createResource_checks_witness :
    ((2 : ℤ) ≠ 0 ∧ (0 : ℤ) ≤ 300 ∧
      findData db0 2 = some { id := 2, name := "Water Reserve", category := .water } ∧
      db0.resources.find? (fun x => x.resourceDataId == 2) = none) ∧
    createResourceService db0 (some 2) (some 300) =
      (.ok (enrichResourceWithLevels { id := db0.nextResourceId, quantity := 300, resourceDataId := 2 }
        { id := 2, name := "Water Reserve", category := .water }),
       { db0 with
         resources := db0.resources ++ [{ id := db0.nextResourceId, quantity := 300, resourceDataId := 2 }]
         nextResourceId := db0.nextResourceId + 1 }) :=
  ⟨⟨by decide, by decide, by decide, by decide⟩,
   (createResource_checks db0 (some 2) (some 300)).2.2.2.2 2 300
     { id := 2, name := "Water Reserve", category := .water } rfl (by decide) rfl
     (by decide) (by decide) (by decide)⟩

/-- **C8** — the retention sweep deletes exactly the history rows with `createdAt`
strictly before `now − 30d`, retains rows exactly at the boundary, reports the number of
deleted rows, and touches nothing else. -/
theorem historyCleanup_retention (db : DB) (now : ℤ) :
    (historyCleanupTick db now).1.catalog = db.catalog ∧
    (historyCleanupTick db now).1.resources = db.resources ∧
    (∀ e ∈ db.history,
      (e.createdAt < now - thirtyDaysMs → e ∉ (historyCleanupTick db now).1.history) ∧
      (now - thirtyDaysMs ≤ e.createdAt → e ∈ (historyCleanupTick db now).1.history)) ∧
    (∀ e ∈ (historyCleanupTick db now).1.history,
      e ∈ db.history ∧ now - thirtyDaysMs ≤ e.createdAt) ∧
    (historyCleanupTick db now).2 + (historyCleanupTick db now).1.history.length =
      db.history.length := by
  refine ⟨rfl, rfl, ?_, ?_, ?_⟩
  · intro e he
    constructor
    · intro hlt hmem
      have := (List.mem_filter.1 hmem).2
      simp [historyCleanupTick] at this
      omega
    · intro hge
      exact List.mem_filter.2 ⟨he, by simp [historyCleanupTick]; omega⟩
  · intro e he
    refine ⟨(List.mem_filter.1 he).1, ?_⟩
    have := (List.mem_filter.1 he).2
    simp [historyCleanupTick] at this
    omega
  · have h := List.length_eq_length_filter_add
      (l := db.history) (fun e => decide (e.createdAt < now - thirtyDaysMs))
    simp only [historyCleanupTick]
    simp only [decide_not] at h ⊢
    omega

/-- **C8 witness** — instantiation of `historyCleanup_retention` at a clock exactly 30
days past the sample store's single history row. -/
theorem historyCleanup_retention_witness :
    ({ id := 1, stock := 14000, resourceId := 1, changeType := none, createdAt := 100 } ∈
        db0.history) ∧
    ((100 : ℤ) + thirtyDaysMs - thirtyDaysMs ≤
        ({ id := 1, stock := 14000, resourceId := 1, changeType := none, createdAt := 100 } :
          HistoryEntry).createdAt →
      { id := 1, stock := 14000, resourceId := 1, changeType := none, createdAt := 100 } ∈
        (historyCleanupTick db0 (100 + thirtyDaysMs)).1.history) ∧
    (historyCleanupTick db0 (100 + thirtyDaysMs)).2 +
        (historyCleanupTick db0 (100 + thirtyDaysMs)).1.history.length =
      db0.history.length :=
  ⟨by decide,
   ((historyCleanup_retention db0 (100 + thirtyDaysMs)).2.2.1 _ (by decide)).2,
   (historyCleanup_retention db0 (100 + thirtyDaysMs)).2.2.2.2⟩

/-- **C7 counterexample** — the claim says the snapshot broadcast carries the *enriched*
resource list (levels and status applied), but the cron emits `resource.toJSON()`: the
plain rows with their joined type info and no level or status keys. -/
theorem monitoringTick_broadcast_counterexample :
    (resourceMonitoringTick db0 300 true).2.map Broadcast.resources ≠
      (getAllResourcesService db0).map (fun l => l.map Enriched.toWire) := by
  decide

/-- **C7 (amended)** — a snapshot firing on an empty resource set inserts nothing and
broadcasts nothing; otherwise it appends exactly one history row per resource, keyed to
the resource's type and carrying its current quantity and the firing timestamp, and (when
the socket server is attached) emits exactly one broadcast carrying the firing timestamp
and the *plain* (`toJSON`, not enriched) resource list. -/
theorem monitoringTick_effects (db : DB) (now : ℤ) (io : Bool) :
    (db.resources = [] → resourceMonitoringTick db now io = (db, none)) ∧
    (db.resources ≠ [] →
      (∃ batch, (resourceMonitoringTick db now io).1.history = db.history ++ batch ∧
        List.Forall₂ (fun (r : Resource) (e : HistoryEntry) =>
          e.stock = r.quantity ∧ e.resourceId = r.resourceDataId ∧
          e.changeType = none ∧ e.createdAt = now) db.resources batch) ∧
      (resourceMonitoringTick db now io).1.resources = db.resources ∧
      (resourceMonitoringTick db now io).1.catalog = db.catalog ∧
      (io = true → (resourceMonitoringTick db now io).2 =
        some { resources := db.resources.map (resourceToJSON db)
               count := db.resources.length, timestamp := now }) ∧
      (io = false → (resourceMonitoringTick db now io).2 = none)) := by
  constructor
  · intro hempty
    simp [resourceMonitoringTick, hempty]
  · intro hne
    have hisEmpty : db.resources.isEmpty = false := by
      simpa [List.isEmpty_iff] using hne
    refine ⟨⟨db.resources.enum.map (fun p =>
        { id := db.nextHistoryId + p.1
          stock := p.2.quantity
          resourceId := p.2.resourceDataId
          changeType := none
          createdAt := now }), ?_, ?_⟩, ?_, ?_, ?_, ?_⟩
    · simp [resourceMonitoringTick, hisEmpty]
      cases io <;> simp
    · exact forall₂_enumFrom_map _ _ (fun n a => ⟨rfl, rfl, rfl, rfl⟩) db.resources 0
    · cases io <;> simp [resourceMonitoringTick, hisEmpty]
    · cases io <;> simp [resourceMonitoringTick, hisEmpty]
    · rintro rfl
      simp [resourceMonitoringTick, hisEmpty]
    · rintro rfl
      simp [resourceMonitoringTick, hisEmpty]

/-- **C7 witness** — instantiation of `monitoringTick_effects` on the sample store (one
resource) and on a store with no resources. -/
theorem monitoringTick_effects_witness :
    (db0.resources ≠ [] ∧
      (∃ batch, (resourceMonitoringTick db0 300 true).1.history = db0.history ++ batch ∧
        List.Forall₂ (fun (r : Resource) (e : HistoryEntry) =>
          e.stock = r.quantity ∧ e.resourceId = r.resourceDataId ∧
          e.changeType = none ∧ e.createdAt = 300) db0.resources batch) ∧
      (resourceMonitoringTick db0 300 true).2 =
        some { resources := db0.resources.map (resourceToJSON db0)
               count := db0.resources.length, timestamp := 300 }) ∧
    ({ db0 with resources := [] } : DB).resources = [] ∧
    resourceMonitoringTick { db0 with resources := [] } 300 true =
      ({ db0 with resources := [] }, none) :=
  ⟨⟨by decide,
    ((monitoringTick_effects db0 300 true).2 (by decide)).1,
    ((monitoringTick_effects db0 300 true).2 (by decide)).2.2.2.1 rfl⟩,
   rfl,
   (monitoringTick_effects { db0 with resources := [] } 300 true).1 rfl⟩

/-- **C9** — both history queries fail with the not-found sentinel exactly when the id
does not resolve in the catalog of resource types; the check is independent of the
ResourceState table; on success `getResourceHistoryService` returns the entries of that
type newest-first, bounded to `limit`, whose default is 100. -/
theorem historyQuery_catalogCheck (db : DB) (now rid : ℤ) (limit : ℕ) :
    (getResourceHistoryService db rid limit = .resourceNotFound ↔ findData db rid = none) ∧
    (getHistoryStatsService db now rid = .resourceNotFound ↔ findData db rid = none) ∧
    (∀ rs, getResourceHistoryService { db with resources := rs } rid limit =
      getResourceHistoryService db rid limit) ∧
    getResourceHistoryService db rid = getResourceHistoryService db rid 100 ∧
    (∀ l, getResourceHistoryService db rid limit = .ok l →
      l.length ≤ limit ∧
      l.Pairwise (fun a b => b.createdAt ≤ a.createdAt) ∧
      (∀ e ∈ l, e.resourceId = rid)) := by
  refine ⟨?_, ?_, fun rs => rfl, rfl, ?_⟩
  · cases hfd : findData db rid <;> simp [getResourceHistoryService, hfd]
  · cases hfd : findData db rid with
    | none => simp [getHistoryStatsService, hfd]
    | some rd =>
      have hok : ∃ x, getHistoryStatsService db now rid = .ok x := by
        simp only [getHistoryStatsService, hfd]
        split <;> exact ⟨_, rfl⟩
      obtain ⟨x, hx⟩ := hok
      simp [hx, hfd]
  · intro l hl
    cases hfd : findData db rid with
    | none => simp [getResourceHistoryService, hfd] at hl
    | some rd =>
      simp only [getResourceHistoryService, hfd, QueryResult.ok.injEq] at hl
      subst hl
      refine ⟨?_, ?_, ?_⟩
      · simpa using List.length_take_le limit _
      · have hs := List.sorted_insertionSort newestFirst
          (db.history.filter (fun e => e.resourceId == rid))
        have hp : (List.insertionSort newestFirst
            (db.history.filter (fun e => e.resourceId == rid))).Pairwise
            (fun a b => b.createdAt ≤ a.createdAt) :=
          hs.imp (fun {a b} h => by unfold newestFirst at h; omega)
        exact hp.sublist (List.take_sublist _ _)
      · intro e he
        have h1 : e ∈ List.insertionSort newestFirst
            (db.history.filter (fun x => x.resourceId == rid)) :=
          List.take_subset _ _ he
        have h2 : e ∈ db.history.filter (fun x => x.resourceId == rid) :=
          (List.mem_insertionSort newestFirst).1 h1
        simpa using (List.mem_filter.1 h2).2

/-- **C9 witness** — instantiation of `historyQuery_catalogCheck` on the sample store. -/
theorem historyQuery_catalogCheck_witness :
    (getResourceHistoryService db0 3 5 = .resourceNotFound ↔ findData db0 3 = none) ∧
    (getResourceHistoryService db0 1 5 =
        .ok [{ id := 1, stock := 14000, resourceId := 1, changeType := none, createdAt := 100 }] →
      [({ id := 1, stock := 14000, resourceId := 1, changeType := none, createdAt := 100 } :
          HistoryEntry)].length ≤ 5) :=
  ⟨(historyQuery_catalogCheck db0 0 3 5).1,
   fun hl => ((historyQuery_catalogCheck db0 0 1 5).2.2.2.2 _ hl).1⟩

/-- **C3** — a successful quantity update immediately followed by the history query for
that resource's type with limit 1 returns one newest entry whose stock is the new
quantity, tagged `increase`/`decrease`/`update` according to how the new quantity compares
with the prior one.  The clock hypothesis says the update happens after every existing
ledger row ("followed immediately"). -/
theorem update_then_history_limit1 (db : DB) (now id q : ℤ) (r : Resource)
    (rd : ResourceData) (hq : 0 ≤ q) (hr : findResource db id = some r)
    (hrd : findData db r.resourceDataId = some rd)
    (hnow : ∀ e ∈ db.history, e.createdAt < now) :
    (updateResourceQuantityService db now .noFault id (some q)).1 =
      .ok (enrichResourceWithLevels { r with quantity := q } rd) ∧
    ∃ e : HistoryEntry,
      getResourceHistoryService
        (updateResourceQuantityService db now .noFault id (some q)).2 r.resourceDataId 1 =
        .ok [e] ∧
      e.stock = q ∧
      (r.quantity < q → e.changeType = some .increase) ∧
      (q < r.quantity → e.changeType = some .decrease) ∧
      (q = r.quantity → e.changeType = some .update) := by
  have hnotlt : ¬ q < 0 := not_lt.2 hq
  constructor
  · simp [updateResourceQuantityService, hr, hnotlt, hrd]
  · refine ⟨{ id := db.nextHistoryId, stock := q, resourceId := r.resourceDataId
              changeType := some (if r.quantity < q then .increase
                                  else if q < r.quantity then .decrease else .update)
              createdAt := now }, ?_, rfl, ?_, ?_, ?_⟩
    · have h2 : (updateResourceQuantityService db now .noFault id (some q)).2 =
          { db with
            resources := db.resources.map
              (fun x => if x.id == id then { r with quantity := q } else x)
            history := db.history ++
              [{ id := db.nextHistoryId, stock := q, resourceId := r.resourceDataId
                 changeType := some (if r.quantity < q then .increase
                                     else if q < r.quantity then .decrease else .update)
                 createdAt := now }]
            nextHistoryId := db.nextHistoryId + 1 } := by
        simp only [updateResourceQuantityService, hr, hnotlt, if_false]
      rw [h2]
      have hrd' : findData
          { db with
            resources := db.resources.map
              (fun x => if x.id == id then { r with quantity := q } else x)
            history := db.history ++
              [{ id := db.nextHistoryId, stock := q, resourceId := r.resourceDataId
                 changeType := some (if r.quantity < q then .increase
                                     else if q < r.quantity then .decrease else .update)
                 createdAt := now }]
            nextHistoryId := db.nextHistoryId + 1 } r.resourceDataId = some rd := hrd
      simp only [getResourceHistoryService, hrd']
      rw [List.filter_append]
      have hpe : (List.filter (fun e => e.resourceId == r.resourceDataId)
          [{ id := db.nextHistoryId, stock := q, resourceId := r.resourceDataId
             changeType := some (if r.quantity < q then .increase
                                 else if q < r.quantity then .decrease else .update)
             createdAt := now }] : List HistoryEntry) =
          [{ id := db.nextHistoryId, stock := q, resourceId := r.resourceDataId
             changeType := some (if r.quantity < q then .increase
                                 else if q < r.quantity then .decrease else .update)
             createdAt := now }] := by simp
      rw [hpe, insertionSort_append_strictMax]
      · rfl
      · intro x hx
        have hxh : x ∈ db.history := (List.mem_filter.1 hx).1
        have hxlt := hnow x hxh
        unfold newestFirst
        simp only [not_or, not_and, not_lt]
        omega
    · intro h
      simp [if_pos h]
    · intro h
      simp [if_neg (lt_asymm h), if_pos h]
    · intro h
      simp [if_neg (by omega : ¬ r.quantity < q), if_neg (by omega : ¬ q < r.quantity)]

/-- **C3 witness** — instantiation of `update_then_history_limit1` on the sample store:
updating the oxygen resource to 4000 and querying with limit 1. -/
theorem update_then_history_limit1_witness :
    ((0 : ℤ) ≤ 4000 ∧
      findResource db0 1 = some { id := 1, quantity := 15000, resourceDataId := 1 } ∧
      findData db0 1 = some { id := 1, name := "Main Oxygen Tank", category := .oxygen } ∧
      (∀ e ∈ db0.history, e.createdAt < 200)) ∧
    ∃ e : HistoryEntry,
      getResourceHistoryService
        (updateResourceQuantityService db0 200 .noFault 1 (some 4000)).2 1 1 = .ok [e] ∧
      e.stock = 4000 ∧
      ((4000 : ℤ) < 15000 → e.changeType = some .decrease) :=
  ⟨⟨by decide, by decide, by decide, by decide⟩,
   match (update_then_history_limit1 db0 200 1 4000
      { id := 1, quantity := 15000, resourceDataId := 1 }
      { id := 1, name := "Main Oxygen Tank", category := .oxygen }
      (by decide) (by decide) (by decide) (by decide)).2 with
   | ⟨e, hquery, hstock, _, hdec, _⟩ => ⟨e, hquery, hstock, fun h => hdec h⟩⟩

/-- **C6** — for a known resource type with no history rows in the trailing 24-hour
window, `getHistoryStatsService` succeeds with the zero-valued stats object (`trend`
stable, `totalRecords` 0), and the `firstValue = 0` guard makes the percentage-change
computation yield 0 instead of dividing by zero. -/
theorem historyStats_emptyWindow (db : DB) (now rid : ℤ) (rd : ResourceData)
    (hrd : findData db rid = some rd) :
    (statsWindow db now rid = [] →
      getHistoryStatsService db now rid =
        .ok (rd, { average := 0, min := 0, max := 0, current := 0, trend := .stable
                   percentageChange := none, totalRecords := 0, timeRange := none })) ∧
    (∀ e0 t, statsWindow db now rid = e0 :: t → e0.stock = 0 →
      ∃ s : Stats, getHistoryStatsService db now rid = .ok (rd, s) ∧
        s.percentageChange = some 0 ∧ s.trend = .stable) := by
  constructor
  · intro hw
    simp [getHistoryStatsService, hrd, hw]
  · intro e0 t hw h0
    simp only [getHistoryStatsService, hrd, hw, List.length_cons, Nat.succ_ne_zero,
      if_false, List.map_cons, List.headD_cons, h0]
    refine ⟨_, rfl, ?_, ?_⟩ <;> norm_num

/-- **C5** — for a known resource type with at least one history row in the trailing
24-hour window, the stats are: `average` the rounded mean of the window's stock values,
`min`/`max` the extrema, `current` the newest value, `percentageChange` the rounded
relative change from the oldest to the newest value (0 when the oldest value is 0),
`trend` determined by the unrounded percentage change against the ±5 thresholds, and
`totalRecords` the number of rows in the window. -/
theorem historyStats_values (db : DB) (now rid : ℤ) (rd : ResourceData)
    (hrd : findData db rid = some rd) (hne : windowFilter db now rid ≠ []) :
    ∃ s : Stats, getHistoryStatsService db now rid = .ok (rd, s) ∧
      s.totalRecords = (windowFilter db now rid).length ∧
      s.timeRange = some "24h" ∧
      s.average = round (((((windowFilter db now rid).map (fun h => h.stock)).sum : ℤ) : ℚ) /
        ((windowFilter db now rid).length : ℚ)) ∧
      (s.min ∈ (windowFilter db now rid).map (fun h => h.stock) ∧
        ∀ v ∈ (windowFilter db now rid).map (fun h => h.stock), s.min ≤ v) ∧
      (s.max ∈ (windowFilter db now rid).map (fun h => h.stock) ∧
        ∀ v ∈ (windowFilter db now rid).map (fun h => h.stock), v ≤ s.max) ∧
      ∃ eF eL, eF ∈ windowFilter db now rid ∧ eL ∈ windowFilter db now rid ∧
        (∀ e ∈ windowFilter db now rid, oldestFirst eF e) ∧
        (∀ e ∈ windowFilter db now rid, oldestFirst e eL) ∧
        s.current = eL.stock ∧
        s.percentageChange = some ((round ((if eF.stock = 0 then 0 else
            ((eL.stock : ℚ) - (eF.stock : ℚ)) / (eF.stock : ℚ) * 100) * 100) : ℚ) / 100) ∧
        (s.trend = .increasing ↔ 5 < (if eF.stock = 0 then (0 : ℚ) else
            ((eL.stock : ℚ) - (eF.stock : ℚ)) / (eF.stock : ℚ) * 100)) ∧
        (s.trend = .decreasing ↔ (if eF.stock = 0 then (0 : ℚ) else
            ((eL.stock : ℚ) - (eF.stock : ℚ)) / (eF.stock : ℚ) * 100) < -5) ∧
        (s.trend = .stable ↔ ¬ 5 < (if eF.stock = 0 then (0 : ℚ) else
            ((eL.stock : ℚ) - (eF.stock : ℚ)) / (eF.stock : ℚ) * 100) ∧
          ¬ (if eF.stock = 0 then (0 : ℚ) else
            ((eL.stock : ℚ) - (eF.stock : ℚ)) / (eF.stock : ℚ) * 100) < -5) := by
  have hsorted : (statsWindow db now rid).Sorted oldestFirst :=
    List.sorted_insertionSort oldestFirst (windowFilter db now rid)
  have hperm : (statsWindow db now rid).Perm (windowFilter db now rid) :=
    List.perm_insertionSort oldestFirst (windowFilter db now rid)
  have hWne : statsWindow db now rid ≠ [] := by
    intro h
    exact hne (List.Perm.eq_nil (h ▸ hperm).symm)
  obtain ⟨e0, t, hW⟩ := List.exists_cons_of_ne_nil hWne
  rw [hW] at hsorted hperm
  have hmemiff : ∀ x : HistoryEntry, x ∈ e0 :: t ↔ x ∈ windowFilter db now rid :=
    fun x => hperm.mem_iff
  have hmemval : ∀ v : ℤ, v ∈ (e0 :: t).map (fun h => h.stock) ↔
      v ∈ (windowFilter db now rid).map (fun h => h.stock) :=
    fun v => (hperm.map (fun h => h.stock)).mem_iff
  have hcons := List.sorted_cons.1 hsorted
  simp only [getHistoryStatsService, hrd, hW, List.length_cons, Nat.succ_ne_zero,
    if_false, List.map_cons, List.headD_cons]
  refine ⟨_, rfl, ?_, rfl, ?_, ?_, ?_, ?_⟩
  · -- totalRecords
    simpa using hperm.length_eq
  · -- average
    dsimp only
    have h1 : (e0.stock :: t.map (fun h => h.stock)) = (e0 :: t).map (fun h => h.stock) := rfl
    rw [h1, foldl_add_eq_sum, zero_add, (hperm.map (fun h => h.stock)).sum_eq]
    have h2 : (List.map (fun h => h.stock) t).length + 1 =
        (windowFilter db now rid).length := by
      simpa using hperm.length_eq
    rw [h2]
  · -- min
    constructor
    · rcases foldl_min_mem (t.map (fun h => h.stock)) e0.stock with h | h
      · exact (hmemval _).1 (by rw [jsMin, h]; exact List.mem_cons_self _ _)
      · exact (hmemval _).1 (by rw [jsMin]; exact List.mem_cons_of_mem _ h)
    · intro v hv
      rcases List.mem_cons.1 ((hmemval v).2 hv) with rfl | hv'
      · exact foldl_min_le_init _ _
      · exact foldl_min_le_mem _ _ _ hv'
  · -- max
    constructor
    · rcases foldl_max_mem (t.map (fun h => h.stock)) e0.stock with h | h
      · exact (hmemval _).1 (by rw [jsMax, h]; exact List.mem_cons_self _ _)
      · exact (hmemval _).1 (by rw [jsMax]; exact List.mem_cons_of_mem _ h)
    · intro v hv
      rcases List.mem_cons.1 ((hmemval v).2 hv) with rfl | hv'
      · exact init_le_foldl_max _ _
      · exact mem_le_foldl_max _ _ _ hv'
  · -- current / percentageChange / trend
    have hcur : (t.map (fun h => h.stock)).getLastD e0.stock = (t.getLastD e0).stock :=
      getLastD_map (fun h => h.stock) t e0
    have hgl : (e0.stock :: t.map (fun h => h.stock)).getLastD 0 = (t.getLastD e0).stock := by
      rw [List.getLastD_cons]
      exact hcur
    have hiff : (if e0.stock ≠ 0 then
          (((t.getLastD e0).stock - e0.stock : ℤ) : ℚ) / (e0.stock : ℚ) * 100 else 0) =
        (if e0.stock = 0 then (0 : ℚ) else
          (((t.getLastD e0).stock : ℚ) - (e0.stock : ℚ)) / (e0.stock : ℚ) * 100) := by
      rcases eq_or_ne e0.stock 0 with h0 | h0
      · simp [h0]
      · rw [if_pos h0, if_neg h0]
        push_cast
        ring
    refine ⟨e0, t.getLastD e0, (hmemiff e0).1 (List.mem_cons_self e0 t),
      (hmemiff _).1 (List.getLastD_mem_cons t e0), ?_, ?_, ?_, ?_, ?_, ?_, ?_⟩
    · intro e he
      rcases List.mem_cons.1 ((hmemiff e).2 he) with rfl | he'
      · exact oldestFirst_refl e
      · exact hcons.1 e he'
    · intro e he
      exact sorted_rel_getLastD oldestFirst_refl t e0 hsorted e ((hmemiff e).2 he)
    · dsimp only
      rw [hgl]
    · dsimp only
      rw [hgl, hiff]
    · dsimp only
      rw [hgl, hiff]
      split_ifs <;> simp_all <;> linarith
    · dsimp only
      rw [hgl, hiff]
      split_ifs <;> simp_all <;> linarith
    · dsimp only
      rw [hgl, hiff]
      split_ifs <;> simp_all <;> linarith

/-- **C6 witness** — instantiation of `historyStats_emptyWindow`: the sample store a day
after its only row (empty window), and a store whose only window row has stock 0. -/
theorem historyStats_emptyWindow_witness :
    (findData db0 1 = some { id := 1, name := "Main Oxygen Tank", category := .oxygen } ∧
      statsWindow db0 (oneDayMs + 200) 1 = []) ∧
    getHistoryStatsService db0 (oneDayMs + 200) 1 =
      .ok ({ id := 1, name := "Main Oxygen Tank", category := .oxygen },
        { average := 0, min := 0, max := 0, current := 0, trend := .stable
          percentageChange := none, totalRecords := 0, timeRange := none }) ∧
    ∃ s : Stats, getHistoryStatsService dbZero 100 1 =
        .ok ({ id := 1, name := "Main Oxygen Tank", category := .oxygen }, s) ∧
      s.percentageChange = some 0 ∧ s.trend = .stable :=
  ⟨⟨by decide, by decide⟩,
   (historyStats_emptyWindow db0 (oneDayMs + 200) 1
      { id := 1, name := "Main Oxygen Tank", category := .oxygen } (by decide)).1 (by decide),
   (historyStats_emptyWindow dbZero 100 1
      { id := 1, name := "Main Oxygen Tank", category := .oxygen } (by decide)).2
     { id := 1, stock := 0, resourceId := 1, changeType := none, createdAt := 100 } []
     (by decide) rfl⟩

/-- **C5 witness** — instantiation of `historyStats_values` on the sample store, whose
24-hour window holds one row. -/
theorem historyStats_values_witness :
    (findData db0 1 = some { id := 1, name := "Main Oxygen Tank", category := .oxygen } ∧
      windowFilter db0 100 1 ≠ []) ∧
    ∃ s : Stats, getHistoryStatsService db0 100 1 =
        .ok ({ id := 1, name := "Main Oxygen Tank", category := .oxygen }, s) ∧
      s.totalRecords = (windowFilter db0 100 1).length ∧
      s.timeRange = some "24h" ∧
      s.average = round (((((windowFilter db0 100 1).map (fun h => h.stock)).sum : ℤ) : ℚ) /
        ((windowFilter db0 100 1).length : ℚ)) :=
  ⟨⟨by decide, by decide⟩,
   match historyStats_values db0 100 1
      { id := 1, name := "Main Oxygen Tank", category := .oxygen } (by decide) (by decide) with
   | ⟨s, hok, htot, htr, havg, _⟩ => ⟨s, hok, htot, htr, havg⟩⟩

end Mars
